import Mathlib

/-!
Verification of the dtp-docker repository's specification against a shallow
embedding of its code.

Each section embeds one component of the repository:

* `datastore/timescaledb/create_dtp.sh` — the database bootstrap script,
  modelled as a sequence of SQL commands against an abstract PostgreSQL
  catalogue state, with per-command tolerance flags mirroring `|| true`.
* `infra/frontend/src/components/AuthProvider.tsx` — the session layer.
* `infra/frontend/src/components/MyAppShell.tsx` — the application shell
  and its redirect policy.
* `infra/frontend/src/pages/UserAdminApp.tsx`, `LoginApp.tsx`,
  `MainApp.tsx` — the pages.
* the `docker-ports` justfile recipe's yq pipeline.
* the `random_b64` Jinja filter of `scripts/gen_env.py`.
-/

namespace DTP

/-! ## Database bootstrap script (`datastore/timescaledb/create_dtp.sh`)

The script issues four `psql` commands in order; the first and third carry
`|| true`, the second and fourth do not.  The shell has no `set -e`, so a
failing command never aborts the script.  We model the PostgreSQL catalogue
as lists of roles (name, password), databases (name, owner) and grants
(database, role). -/

/-- Environment variables read by `create_dtp.sh` from the repository `.env`. -/
structure PGEnv where
  pgUser : String
  pgPassword : String
  pgDb : String

/-- Abstract PostgreSQL catalogue state. -/
structure PGState where
  roles : List (String × String)
  dbs : List (String × String)
  grants : List (String × String)
deriving Repr, DecidableEq

/-- The catalogue before the script has ever run (no application role,
database or grant). -/
def PGState.empty : PGState := ⟨[], [], []⟩

/-- The four kinds of SQL command issued by `create_dtp.sh`. -/
inductive SQLCmd where
  | createUser (name : String)
  | alterPassword (name pw : String)
  | createDb (name owner : String)
  | grantAll (db role : String)
deriving Repr, DecidableEq

/-- PostgreSQL semantics of each command: `CREATE USER` and
`CREATE DATABASE` fail when the entity already exists; `ALTER USER` and
`GRANT` fail when the entity is missing; `GRANT` is idempotent. -/
def execCmd (s : PGState) : SQLCmd → Except String PGState
  | .createUser n =>
      if s.roles.any (fun r => r.1 = n) then .error "role already exists"
      else .ok { s with roles := s.roles ++ [(n, "")] }
  | .alterPassword n pw =>
      if s.roles.any (fun r => r.1 = n) then
        .ok { s with roles := s.roles.map (fun r => if r.1 = n then (r.1, pw) else r) }
      else .error "role does not exist"
  | .createDb n owner =>
      if s.dbs.any (fun d => d.1 = n) then .error "database already exists"
      else if s.roles.any (fun r => r.1 = owner) then
        .ok { s with dbs := s.dbs ++ [(n, owner)] }
      else .error "owner role does not exist"
  | .grantAll d r =>
      if s.dbs.any (fun x => x.1 = d) && s.roles.any (fun x => x.1 = r) then
        .ok { s with grants := if (d, r) ∈ s.grants then s.grants else s.grants ++ [(d, r)] }
      else .error "database or role does not exist"

/-- The script's command list, in source order, paired with whether the
command's failure is tolerated (the `|| true` on steps 1 and 3). -/
def scriptSteps (e : PGEnv) : List (SQLCmd × Bool) :=
  [(.createUser e.pgUser, true),
   (.alterPassword e.pgUser e.pgPassword, false),
   (.createDb e.pgDb e.pgUser, true),
   (.grantAll e.pgDb e.pgUser, false)]

/-- Run one command: on failure the catalogue is unchanged and the raw
status is `false`. -/
def runStep (s : PGState) (c : SQLCmd) : PGState × Bool :=
  match execCmd s c with
  | .ok s' => (s', true)
  | .error _ => (s, false)

/-- Run the whole script from a given catalogue state.  Every step is
executed (the shell has no `set -e`); the returned list records each
step's effective exit status, where a tolerated step (`|| true`) always
reports success. -/
def runScript (e : PGEnv) (s : PGState) : PGState × List Bool :=
  (scriptSteps e).foldl
    (fun acc step =>
      let r := runStep acc.1 step.1
      (r.1, acc.2 ++ [r.2 || step.2]))
    (s, [])

/-- C3: `create_dtp.sh` issues exactly the four commands CREATE USER,
ALTER USER WITH PASSWORD, CREATE DATABASE WITH OWNER, GRANT ALL, in that
order, tolerating failures only of steps 1 and 3; running it twice from an
empty catalogue with the same environment succeeds on every step of both
runs and leaves exactly one role (with the environment's password), one
database (owned by that role) and one matching grant. -/
theorem create_dtp_script_idempotent (e : PGEnv) :
    scriptSteps e =
      [(.createUser e.pgUser, true),
       (.alterPassword e.pgUser e.pgPassword, false),
       (.createDb e.pgDb e.pgUser, true),
       (.grantAll e.pgDb e.pgUser, false)] ∧
    (scriptSteps e).length = 4 ∧
    (runScript e PGState.empty).2 = [true, true, true, true] ∧
    (runScript e (runScript e PGState.empty).1).2 = [true, true, true, true] ∧
    (runScript e (runScript e PGState.empty).1).1.roles = [(e.pgUser, e.pgPassword)] ∧
    (runScript e (runScript e PGState.empty).1).1.dbs = [(e.pgDb, e.pgUser)] ∧
    (runScript e (runScript e PGState.empty).1).1.grants = [(e.pgDb, e.pgUser)] := by
  refine ⟨rfl, rfl, ?_, ?_, ?_, ?_, ?_⟩ <;>
    simp [runScript, scriptSteps, runStep, execCmd, PGState.empty]

/-! ## Session layer (`infra/frontend/src/components/AuthProvider.tsx`)

`AuthProvider` holds `user : User | null` and `loaded : boolean`
(initially `null` and `false`).  `refresh()` fetches `/auth/users/me`
inside a `try`/`catch`: a non-ok response clears the user and returns; a
successful response parses the JSON body into the user; any exception
(network failure, bad JSON) is caught and clears the user.  A mount
effect runs `refresh().finally(() => setLoaded(true))` once. -/

/-- A user record as returned by the authentication service. -/
structure User where
  user_id : String
  user_name : String
  roles : List String
deriving Repr, DecidableEq

/-- The possible outcomes of the `/auth/users/me` fetch performed by
`refresh`. -/
inductive FetchOutcome where
  | success (u : User)
  | badJson
  | httpError (status : Nat)
  | networkFailure
deriving Repr, DecidableEq

/-- Did the identity check produce a valid user? -/
def FetchOutcome.isSuccess : FetchOutcome → Bool
  | .success _ => true
  | _ => false

/-- The client-held session state of `AuthProvider`. -/
structure AuthState where
  user : Option User
  loaded : Bool
deriving Repr, DecidableEq

/-- The state on first mount: no user held, `loaded` false. -/
def AuthState.init : AuthState := ⟨none, false⟩

/-- The body of `refresh`'s `try` block: the fetch and the JSON parse.
A non-ok response is handled inside the block (`setUser(null); return`);
a network failure or JSON-parse failure throws. -/
def refreshAttempt : FetchOutcome → Except String (Option User)
  | .success u => .ok (some u)
  | .httpError _ => .ok none
  | .badJson => .error "json parse failed"
  | .networkFailure => .error "fetch failed"

/-- `refresh` with its surrounding `catch`: an exception thrown by the
`try` block is caught and clears the held user; `refresh` itself never
propagates an exception (result is always `.ok`). -/
def refresh (s : AuthState) (o : FetchOutcome) : Except String AuthState :=
  match refreshAttempt o with
  | .ok u => .ok { s with user := u }
  | .error _ => .ok { s with user := none }

/-- The mount effect: `refresh().finally(() => setLoaded(true))` — the
`loaded` flag is set exactly once, after the identity check settles,
whatever its outcome. -/
def mountAuthProvider (o : FetchOutcome) : AuthState :=
  match refresh AuthState.init o with
  | .ok s => { s with loaded := true }
  | .error _ => { AuthState.init with loaded := true }

/-- C2: `loaded` starts false and is true after the initial identity
check settles, for every outcome of that check; and `refresh` always
returns normally (never an exception), clearing the held user to
no-value whenever the check was not a success, while leaving `loaded`
untouched. -/
theorem auth_provider_loaded_and_refresh (s : AuthState) (o : FetchOutcome) :
    AuthState.init.loaded = false ∧
    (mountAuthProvider o).loaded = true ∧
    (∃ s', refresh s o = .ok s' ∧
      (o.isSuccess = false → s'.user = none) ∧ s'.loaded = s.loaded) := by
  refine ⟨rfl, ?_, ?_⟩
  · cases o <;> simp [mountAuthProvider, refresh, refreshAttempt]
  · cases o <;>
      simp [refresh, refreshAttempt, FetchOutcome.isSuccess]

/-- Witness for C2 at a concrete state and outcome: a network failure
during `refresh` at an authenticated state clears the user and does not
throw, and the mount flips `loaded` to true. -/
theorem auth_provider_loaded_and_refresh_witness :
    AuthState.init.loaded = false ∧
    (mountAuthProvider .networkFailure).loaded = true ∧
    (∃ s', refresh ⟨some ⟨"id1", "alice", ["admin"]⟩, true⟩ .networkFailure = .ok s' ∧
      ((FetchOutcome.networkFailure).isSuccess = false → s'.user = none) ∧
      s'.loaded = (⟨some ⟨"id1", "alice", ["admin"]⟩, true⟩ : AuthState).loaded) :=
  auth_provider_loaded_and_refresh ⟨some ⟨"id1", "alice", ["admin"]⟩, true⟩ .networkFailure

/-! ## Application shell (`MyAppShell.tsx`, cookie variant)

`MyAppShellInner` reads `(user, loaded)` from the session layer and the
current path from `window.location.pathname`.  An effect keyed on
`[user, loaded]` issues the redirects; the main slot renders the page
children only when `loaded && (user || path.startsWith("/login"))`.
Paths are modelled as character lists. -/

/-- The literal path `/login`. -/
def loginPath : List Char := ['/', 'l', 'o', 'g', 'i', 'n']

/-- One render snapshot of the shell: the session values and the page
path. -/
structure ShellState where
  loaded : Bool
  user : Option User
  path : List Char
deriving Repr, DecidableEq

/-- The redirect effect body of `MyAppShellInner`: returns the navigation
target assigned to `window.location.href`, if any.  The two `if`s of the
source have mutually exclusive conditions (`!user` vs `user`). -/
def shellEffectNav (s : ShellState) : Option (List Char) :=
  if s.loaded && s.user.isNone && !(loginPath.isPrefixOf s.path) then some loginPath
  else if s.loaded && s.user.isSome && loginPath.isPrefixOf s.path then some ['/']
  else none

/-- The main slot's conditional:
`loaded && (user || path.startsWith("/login")) ? children : null`. -/
def rendersMain (s : ShellState) : Bool :=
  s.loaded && (s.user.isSome || loginPath.isPrefixOf s.path)

/-- The navigations issued over a run of render snapshots: the effect
fires per snapshot, and the first navigation unloads the page, so no
later snapshot's effect runs. -/
def navTrace : List ShellState → List (List Char)
  | [] => []
  | s :: rest =>
    match shellEffectNav s with
    | some t => [t]
    | none => navTrace rest

/-- Before `loaded` becomes true, no snapshot issues a navigation: the
trace of a run of not-yet-loaded snapshots followed by one final snapshot
is decided by the final snapshot's effect alone. -/
theorem navTrace_append_single (pre : List ShellState) (t : ShellState)
    (h : ∀ s ∈ pre, s.loaded = false) :
    navTrace (pre ++ [t]) =
      match shellEffectNav t with
      | some x => [x]
      | none => [] := by
  induction pre with
  | nil => cases hnav : shellEffectNav t <;> simp [navTrace, hnav]
  | cons s rest ih =>
      have hs : s.loaded = false := h s (by simp)
      have hnone : shellEffectNav s = none := by simp [shellEffectNav, hs]
      simp only [List.cons_append, navTrace, hnone]
      exact ih (fun x hx => h x (by simp [hx]))

/-- C1: over any run whose snapshots have `loaded = false` until a final
snapshot with `loaded = true`: with no user held on a non-login path,
exactly one navigation is issued and it targets `/login`; with a user
held on the login path, exactly one navigation is issued and it targets
`/`; and for every snapshot the main content is rendered iff `loaded` is
true and (a user is held or the path starts with `/login`). -/
theorem shell_redirect_policy (pre : List ShellState) (user : Option User)
    (path : List Char) (hpre : ∀ s ∈ pre, s.loaded = false) :
    (user = none → loginPath.isPrefixOf path = false →
      navTrace (pre ++ [⟨true, user, path⟩]) = [loginPath]) ∧
    (user.isSome = true → loginPath.isPrefixOf path = true →
      navTrace (pre ++ [⟨true, user, path⟩]) = [['/']]) ∧
    (∀ s : ShellState,
      rendersMain s = true ↔
        (s.loaded = true ∧ (s.user.isSome = true ∨ loginPath.isPrefixOf s.path = true))) := by
  have hstep : ∀ t : ShellState, navTrace (pre ++ [t]) =
      match shellEffectNav t with
      | some x => [x]
      | none => [] := fun t => navTrace_append_single pre t hpre
  refine ⟨?_, ?_, ?_⟩
  · intro hu hp
    rw [hstep]
    simp [shellEffectNav, hu, hp]
  · intro hu hp
    rw [hstep]
    simp [shellEffectNav, hu, hp, Option.isNone_iff_eq_none]
  · intro s
    constructor
    · intro h
      simp only [rendersMain, Bool.and_eq_true, Bool.or_eq_true] at h
      exact ⟨h.1, h.2⟩
    · intro h
      simp only [rendersMain, Bool.and_eq_true, Bool.or_eq_true]
      exact ⟨h.1, h.2⟩

/-- Witness for C1 at a concrete run: starting on the protected path
`/home` with the identity check pending and resolving with no user,
exactly one navigation to `/login` is issued; and the corresponding
render checks hold at that final snapshot. -/
theorem shell_redirect_policy_witness :
    navTrace [⟨false, none, ['/', 'h', 'o', 'm', 'e']⟩,
              ⟨true, none, ['/', 'h', 'o', 'm', 'e']⟩] = [loginPath] ∧
    rendersMain ⟨true, none, ['/', 'h', 'o', 'm', 'e']⟩ = false := by
  have h := shell_redirect_policy [⟨false, none, ['/', 'h', 'o', 'm', 'e']⟩] none
    ['/', 'h', 'o', 'm', 'e'] (by intro s hs; simp at hs; simp [hs])
  refine ⟨?_, ?_⟩
  · have := h.1 rfl (by decide)
    simpa using this
  · have hiff := h.2.2 ⟨true, none, ['/', 'h', 'o', 'm', 'e']⟩
    by_contra hc
    have hb : rendersMain ⟨true, none, ['/', 'h', 'o', 'm', 'e']⟩ = true := by
      cases hr : rendersMain ⟨true, none, ['/', 'h', 'o', 'm', 'e']⟩
      · exact absurd hr hc
      · rfl
    have := (hiff.mp hb).2
    simp at this
    exact absurd this (by decide)

/-! ## Shared utility (`infra/frontend/src/util.tsx`) and the
User Admin page (`infra/frontend/src/pages/UserAdminApp.tsx`)

`commonString` returns undefined when either argument is undefined,
otherwise whether the two lists share an element.  `UserAdminMain`
returns null until `loaded`; shows "Not authorized" when no user is held
or the role check fails; otherwise mounts `UsersTable`, whose effect
fetches `/auth/users`, sorts the users by `user_name` and renders one
row per user, or an inline red failure notice. -/

/-- `commonString` from `util.tsx`: `undefined` when either list is
`undefined`, else whether some element of the first list is in the
second. -/
def commonString : Option (List String) → Option (List String) → Option Bool
  | some a, some b => some (a.any (fun v => b.contains v))
  | _, _ => none

/-- The allow-list used by the role gates: `["admin", "users:admin"]`. -/
def adminAllowList : List String := ["admin", "users:admin"]

/-- What `UserAdminMain` renders. -/
inductive AdminView where
  | blank
  | notAuthorized
  | authorized
deriving Repr, DecidableEq

/-- `UserAdminMain`: null before `loaded`; "Not authorized" when no user
is held or `commonString(user.roles, allowList)` is falsy; otherwise the
management view (which contains `UsersTable`). -/
def userAdminMain (loaded : Bool) (user : Option User) : AdminView :=
  if loaded = false then .blank
  else
    match user with
    | none => .notAuthorized
    | some u =>
        if (commonString (some u.roles) (some adminAllowList)).getD false then .authorized
        else .notAuthorized

/-- `UsersTable` is mounted — and hence its `/auth/users` fetch effect
runs — exactly in the authorized view. -/
def fetchesUsers (loaded : Bool) (user : Option User) : Bool :=
  match userAdminMain loaded user with
  | .authorized => true
  | _ => false

/-- The row order relation used by the table: ascending `user_name`
(the source sorts with `localeCompare` on `user_name`), modelled as
lexicographic order on the name's character list. -/
def byName (a b : User) : Prop := a.user_name.toList ≤ b.user_name.toList

instance : DecidableRel byName :=
  fun a b => inferInstanceAs (Decidable (a.user_name.toList ≤ b.user_name.toList))

instance : IsTotal User byName := ⟨fun a b => le_total a.user_name.toList b.user_name.toList⟩

instance : IsTrans User byName := ⟨fun _ _ _ h1 h2 => le_trans h1 h2⟩

/-- The sort applied to the fetched user list before rendering. -/
def sortUsers (us : List User) : List User := List.insertionSort byName us

/-- Outcome of the `/auth/users` fetch. -/
inductive UsersFetch where
  | ok (users : List User)
  | httpError (status : Nat)
  | networkFailure
deriving Repr, DecidableEq

/-- What `UsersTable` renders once its fetch settles. -/
inductive TableView where
  | table (rows : List User)
  | failureNotice (msg : String)
deriving Repr, DecidableEq

/-- `UsersTable`'s effect: a successful response renders the sorted
rows; a non-ok response or a network failure renders the red notice. -/
def usersTable : UsersFetch → TableView
  | .ok us => .table (sortUsers us)
  | .httpError _ => .failureNotice "Could not load users info."
  | .networkFailure => .failureNotice "Could not load users info."

/-- C4: a loaded user whose role set does not intersect the allow-list
sees "Not authorized" and no `/auth/users` fetch occurs; a loaded user
whose role set intersects it gets the authorized view with the fetch,
and the rendered rows are the response's users sorted ascending by user
name (a permutation of the response, pairwise ordered), whatever the
response order. -/
theorem user_admin_gate_and_sort (u : User) :
    (u.roles.any (fun r => adminAllowList.contains r) = false →
      userAdminMain true (some u) = .notAuthorized ∧
      fetchesUsers true (some u) = false) ∧
    (u.roles.any (fun r => adminAllowList.contains r) = true →
      userAdminMain true (some u) = .authorized ∧
      fetchesUsers true (some u) = true) ∧
    (∀ us : List User,
      usersTable (.ok us) = .table (sortUsers us) ∧
      (sortUsers us).Perm us ∧
      (sortUsers us).Sorted byName) := by
  refine ⟨?_, ?_, ?_⟩
  · intro h
    have h' : ¬ ∃ x ∈ u.roles, x ∈ adminAllowList := by simpa using h
    constructor <;> simp [userAdminMain, fetchesUsers, commonString, h']
  · intro h
    have h' : ∃ x ∈ u.roles, x ∈ adminAllowList := by simpa using h
    constructor <;> simp [userAdminMain, fetchesUsers, commonString, h']
  · intro us
    exact ⟨rfl, List.perm_insertionSort byName us, List.sorted_insertionSort byName us⟩

/-- Witness for C4: a viewer-role user is gated with no fetch; an
admin-role user is authorized with the fetch, and a concrete two-user
response is rendered in ascending name order. -/
theorem user_admin_gate_and_sort_witness :
    (userAdminMain true (some ⟨"u1", "victor", ["viewer"]⟩) = .notAuthorized ∧
      fetchesUsers true (some ⟨"u1", "victor", ["viewer"]⟩) = false) ∧
    (userAdminMain true (some ⟨"u2", "alice", ["admin"]⟩) = .authorized ∧
      fetchesUsers true (some ⟨"u2", "alice", ["admin"]⟩) = true) ∧
    (usersTable (.ok [⟨"u1", "victor", ["viewer"]⟩, ⟨"u2", "alice", ["admin"]⟩]) =
      .table [⟨"u2", "alice", ["admin"]⟩, ⟨"u1", "victor", ["viewer"]⟩]) := by
  have h1 := (user_admin_gate_and_sort ⟨"u1", "victor", ["viewer"]⟩).1 (by decide)
  have h2 := (user_admin_gate_and_sort ⟨"u2", "alice", ["admin"]⟩).2.1 (by decide)
  refine ⟨h1, h2, ?_⟩
  decide

/-! ## Login page (`infra/frontend/src/pages/LoginApp.tsx`)

The Mantine form validates both fields (`length < 1` yields the inline
message) and calls `doLogin` only when validation passes.  `doLogin`
sets `loading`, issues one POST to `/auth/token`, and handles the
result; note the early `return` in the 200-with-invalid-token branch,
which skips the final `setLoading(false)`. -/

/-- Outcome of the `/auth/token` POST as seen by `doLogin`: a response
with a status, optional `access_token` and optional `detail` fields in
its JSON body, or a rejected fetch. -/
inductive TokenResp where
  | resp (status : Nat) (accessToken : Option String) (detail : Option String)
  | netError (msg : String)
deriving Repr, DecidableEq

/-- The generic fallback error message of `doLogin`. -/
def fallbackError : String := "An unknown error occured."

/-- A string of length zero is the empty string. -/
theorem string_eq_empty_of_length_eq_zero (u : String) (h0 : u.length = 0) : u = "" := by
  cases u with
  | mk data =>
    cases data with
    | nil => rfl
    | cons c cs => simp [String.length] at h0

/-- The observable result of one submit of the login form. -/
structure LoginView where
  usernameError : Option String
  passwordError : Option String
  requests : Nat
  navigatedTo : Option String
  loading : Bool
deriving Repr, DecidableEq

/-- `doLogin`: issues the request and dispatches on the settled result.
A 200 response with a non-blank string token stores it and navigates to
`/` (falling through to `setLoading(false)`); a 200 response without
such a token sets the fallback error and returns early, leaving
`loading` true; a non-200 response sets the `detail` text (or the
fallback); a network error first sets the stringified error and then,
since the result object is null, falls into the non-200 branch which
overwrites it with the fallback, then clears `loading`. -/
def doLogin (server : TokenResp) : LoginView :=
  match server with
  | .netError _ =>
      { usernameError := none, passwordError := some fallbackError, requests := 1,
        navigatedTo := none, loading := false }
  | .resp status token detail =>
      if status = 200 then
        match token with
        | some t =>
            if 0 < t.trim.length then
              { usernameError := none, passwordError := none, requests := 1,
                navigatedTo := some "/", loading := false }
            else
              { usernameError := none, passwordError := some fallbackError, requests := 1,
                navigatedTo := none, loading := true }
        | none =>
            { usernameError := none, passwordError := some fallbackError, requests := 1,
              navigatedTo := none, loading := true }
      else
        { usernameError := none, passwordError := some (detail.getD fallbackError), requests := 1,
          navigatedTo := none, loading := false }

/-- One submit of the form: validation first (`length < 1` per field),
with `doLogin` called only when both fields validate; a failed
validation issues no request. -/
def submitLoginForm (userName password : String) (server : TokenResp) : LoginView :=
  let ue := if userName.length < 1 then some "Please enter a username" else none
  let pe := if password.length < 1 then some "Please enter a password" else none
  if ue.isSome || pe.isSome then
    { usernameError := ue, passwordError := pe, requests := 0,
      navigatedTo := none, loading := false }
  else doLogin server

/-- C5: an empty username yields the message "Please enter a username"
and zero requests; an empty password yields "Please enter a password"
and zero requests (both messages when both fields are empty); and on a
failed (non-200) login response the server's `detail` text — or the
generic fallback when absent — is shown as the password field's inline
error. -/
theorem login_validation_and_error (u p : String) (server : TokenResp)
    (status : Nat) (token detail : Option String) :
    ((submitLoginForm "" p server).usernameError = some "Please enter a username" ∧
      (submitLoginForm "" p server).requests = 0) ∧
    ((submitLoginForm u "" server).passwordError = some "Please enter a password" ∧
      (submitLoginForm u "" server).requests = 0) ∧
    (u ≠ "" → p ≠ "" → status ≠ 200 →
      (submitLoginForm u p (.resp status token detail)).passwordError =
        some (detail.getD fallbackError)) := by
  refine ⟨?_, ?_, ?_⟩
  · constructor <;> simp [submitLoginForm]
  · constructor <;> simp [submitLoginForm]
  · intro hu hp hs
    have hu' : ¬ u.length < 1 := by
      simp only [Nat.lt_one_iff]
      exact fun h0 => hu (string_eq_empty_of_length_eq_zero u h0)
    have hp' : ¬ p.length < 1 := by
      simp only [Nat.lt_one_iff]
      exact fun h0 => hp (string_eq_empty_of_length_eq_zero p h0)
    simp [submitLoginForm, doLogin, hu', hp', hs]

/-- Witness for C5: both messages and zero requests on a doubly-empty
submit, and a concrete failed response surfacing its `detail` text. -/
theorem login_validation_and_error_witness :
    (submitLoginForm "" "" (.netError "down")).usernameError =
        some "Please enter a username" ∧
    (submitLoginForm "" "" (.netError "down")).requests = 0 ∧
    (submitLoginForm "alice" "" (.netError "down")).passwordError =
        some "Please enter a password" ∧
    (submitLoginForm "alice" "pw"
        (.resp 401 none (some "Incorrect username or password"))).passwordError =
      some "Incorrect username or password" := by
  have h := login_validation_and_error "alice" "pw" (.netError "down") 401 none
    (some "Incorrect username or password")
  refine ⟨?_, ?_, ?_, ?_⟩
  · exact (login_validation_and_error "alice" "" (.netError "down") 401 none none).1.1
  · exact (login_validation_and_error "alice" "" (.netError "down") 401 none none).1.2
  · exact h.2.1.1
  · simpa using h.2.2 (by decide) (by decide) (by decide)

/-- C6 fails on the code: after a settled 200 response whose JSON body
carries no usable `access_token`, `doLogin` returns early without
clearing `loading`, so the submit control stays disabled although no
request is pending and no navigation happened. -/
theorem login_submit_stuck_disabled :
    (submitLoginForm "alice" "pw" (.resp 200 none none)).loading = true ∧
    (submitLoginForm "alice" "pw" (.resp 200 none none)).navigatedTo = none ∧
    (submitLoginForm "alice" "pw" (.resp 200 none none)).requests = 1 := by
  refine ⟨?_, ?_, ?_⟩ <;> rfl

/-! ## Home/Main page whoami diagnostic
(`infra/frontend/src/pages/MainApp.tsx`, lines 27-61)

The effect fetches `/whoami`; the `.then` handler sets the red notice
when `!res.ok` but does not return, then unconditionally sets the view
to the response body; the `.catch` handler sets the other red notice.
We record the sequence of `setWhoami` calls of the settled handler; the
last call is what the page displays. -/

/-- Outcome of the `/whoami` fetch. -/
inductive WhoamiOutcome where
  | ok (body : String)
  | httpError (status : Nat) (body : String)
  | networkFailure
deriving Repr, DecidableEq

/-- What the whoami section can display. -/
inductive WhoamiView where
  | blank
  | bodyText (txt : String)
  | redNotice (msg : String)
deriving Repr, DecidableEq

/-- The sequence of `setWhoami` calls made by the settled handler, in
program order. -/
def whoamiSetCalls : WhoamiOutcome → List WhoamiView
  | .ok b => [.bodyText b]
  | .httpError _ b =>
      [.redNotice "'whoami' fetch failed, not authenticated?", .bodyText b]
  | .networkFailure => [.redNotice "'whoami' fetch failed."]

/-- The displayed whoami view: the last state set wins. -/
def whoamiView (o : WhoamiOutcome) : WhoamiView :=
  (whoamiSetCalls o).getLast?.getD .blank

/-- C7 fails on the code at a non-success response: the red notice is
set but immediately overwritten (the `!res.ok` branch does not return),
so the page displays the response body, not the notice; only a network
failure leaves a red notice displayed.  A success displays the raw
body. -/
theorem whoami_http_error_shows_body :
    whoamiView (.httpError 401 "401 Unauthorized") = .bodyText "401 Unauthorized" ∧
    whoamiView (.httpError 401 "401 Unauthorized") ≠
      .redNotice "'whoami' fetch failed, not authenticated?" ∧
    whoamiView (.ok "user: alice") = .bodyText "user: alice" ∧
    whoamiView .networkFailure = .redNotice "'whoami' fetch failed." := by
  refine ⟨rfl, ?_, rfl, rfl⟩
  intro h
  simp [whoamiView, whoamiSetCalls] at h

/-! ## `docker-ports` recipe (justfile)

The recipe pipes the compose runtime status through yq:
each service document becomes an object mapping the service name to
its published-port strings filtered by the regex test `0.0.0.0`
(where each `.` matches any character), and the objects are merged
with `ireduce ({}; . * $item)`.  The object construction always
creates the key, so a service whose filter result is empty still
contributes an entry whose value is the empty list. -/

/-- Does the pattern match at the head of the text?  Pattern characters
are literal except `.`, which matches any character. -/
def patMatchesHere : List Char → List Char → Bool
  | [], _ => true
  | _ :: _, [] => false
  | p :: ps, c :: cs => (p = '.' || p = c) && patMatchesHere ps cs

/-- Regex test: does the pattern match anywhere in the text? -/
def patTest (pat : List Char) : List Char → Bool
  | [] => pat.isEmpty
  | c :: cs => patMatchesHere pat (c :: cs) || patTest pat cs

/-- The wildcard bind-address pattern of the recipe, `0.0.0.0`. -/
def wildcardPat : List Char := ['0', '.', '0', '.', '0', '.', '0']

/-- The yq filter predicate `test("0.0.0.0")` applied to one published
port string. -/
def wildcardTest (s : String) : Bool := patTest wildcardPat s.toList

/-- yq map merge (`. * $item`) for one single-key object: replace the
value of an existing key, else append the new key. -/
def upsert (m : List (String × List String)) (k : String) (v : List String) :
    List (String × List String) :=
  match m with
  | [] => [(k, v)]
  | (k', v') :: rest => if k' = k then (k, v) :: rest else (k', v') :: upsert rest k v

/-- The whole `docker-ports` pipeline on the compose runtime status,
given per service as its name and its published-port strings. -/
def dockerPorts (services : List (String × List String)) : List (String × List String) :=
  services.foldl (fun acc svc => upsert acc svc.1 (svc.2.filter wildcardTest)) []

/-- Upserting a fresh key appends it. -/
theorem upsert_not_mem (m : List (String × List String)) (k : String)
    (v : List String) (h : k ∉ m.map Prod.fst) : upsert m k v = m ++ [(k, v)] := by
  induction m with
  | nil => rfl
  | cons hd tl ih =>
      simp only [List.map_cons, List.mem_cons] at h
      push_neg at h
      simp only [upsert]
      rw [if_neg (fun he => h.1 he.symm), ih h.2]
      rfl

/-- With pairwise-distinct service names the fold is a per-service map. -/
theorem dockerPorts_eq_map_aux (services acc : List (String × List String))
    (h : (acc.map Prod.fst ++ services.map Prod.fst).Nodup) :
    services.foldl (fun a svc => upsert a svc.1 (svc.2.filter wildcardTest)) acc =
      acc ++ services.map (fun s => (s.1, s.2.filter wildcardTest)) := by
  induction services generalizing acc with
  | nil => simp
  | cons s rest ih =>
      simp only [List.map_cons, List.nodup_append, List.nodup_cons] at h
      have hfresh : s.1 ∉ acc.map Prod.fst := by
        intro hmem
        exact h.2.2 hmem (List.mem_cons_self _ _)
      have hnext : ((acc ++ [(s.1, s.2.filter wildcardTest)]).map Prod.fst ++
          (rest.map Prod.fst)).Nodup := by
        simp only [List.map_append, List.map_cons, List.map_nil, List.append_assoc,
          List.singleton_append]
        rw [List.nodup_append]
        exact ⟨h.1, List.nodup_cons.mpr ⟨h.2.1.1, h.2.1.2⟩, h.2.2⟩
      have := ih (acc ++ [(s.1, s.2.filter wildcardTest)]) hnext
      simp only [List.foldl_cons, upsert_not_mem acc s.1 _ hfresh]
      rw [this]
      simp

/-- Amended C8: for a compose status with pairwise-distinct service
names, `docker-ports` outputs exactly one entry per service, mapping the
name to the subset of its published-port strings matching the wildcard
pattern `0.0.0.0`; the entry's list is nonempty iff some published port
of the service matches — so a service published only on a loopback-only
address still contributes an entry, with an empty port list. -/
theorem docker_ports_amended (services : List (String × List String))
    (h : (services.map Prod.fst).Nodup) :
    dockerPorts services = services.map (fun s => (s.1, s.2.filter wildcardTest)) ∧
    (∀ n ps, (n, ps) ∈ services →
      ((ps.filter wildcardTest ≠ []) ↔ (∃ q ∈ ps, wildcardTest q = true))) := by
  constructor
  · have := dockerPorts_eq_map_aux services [] (by simpa using h)
    simpa [dockerPorts] using this
  · intro n ps _
    constructor
    · intro hne
      rcases List.exists_mem_of_ne_nil _ hne with ⟨q, hq⟩
      rcases List.mem_filter.mp hq with ⟨hmem, htest⟩
      exact ⟨q, hmem, htest⟩
    · rintro ⟨q, hmem, htest⟩
      intro hnil
      have : q ∈ ps.filter wildcardTest := List.mem_filter.mpr ⟨hmem, htest⟩
      simp [hnil] at this

/-- Witness for the amended C8 at a concrete status: a service published
on the wildcard address keeps that port; a loopback-only service gets an
entry with an empty port list. -/
theorem docker_ports_amended_witness :
    dockerPorts [("traefik", ["0.0.0.0:443->443/tcp"]), ("db", ["127.0.0.1:5432->5432/tcp"])] =
      [("traefik", ["0.0.0.0:443->443/tcp"]), ("db", [])] := by
  have h := docker_ports_amended
    [("traefik", ["0.0.0.0:443->443/tcp"]), ("db", ["127.0.0.1:5432->5432/tcp"])]
    (by decide)
  rw [h.1]
  decide

/-- Counterexample to C8 as stated: a service all of whose published
ports are loopback-bound still contributes an entry to the output (with
an empty port list), because the yq object construction always creates
the key. -/
theorem docker_ports_loopback_has_entry :
    dockerPorts [("db", ["127.0.0.1:5432->5432/tcp"])] = [("db", [])] ∧
    ("db", ([] : List String)) ∈ dockerPorts [("db", ["127.0.0.1:5432->5432/tcp"])] ∧
    wildcardTest "127.0.0.1:5432->5432/tcp" = false := by
  refine ⟨by decide, by decide, by decide⟩

/-! ## `random_b64` Jinja filter (`scripts/gen_env.py`) -/

/-- The base64 alphabet. -/
def base64Alphabet : List Char :=
  "ABCDEFGHIJKLMNOPQRSTUVWXYZabcdefghijklmnopqrstuvwxyz0123456789+/".toList

theorem base64Alphabet_length : base64Alphabet.length = 64 := by decide

/-- Modelled from the spec: `scripts/gen_env.py`, the implementation of
the `random_b64` Jinja filter, is not present in the source tree (only
the template README describing it and the `gen-env` recipe invoking it
are).  Per the spec, the requested length is rounded up to the next
multiple of 4. -/
def effectiveLen (n : Nat) : Nat := 4 * ((n + 3) / 4)

/-- One character of the base64 alphabet, selected by a 6-bit index. -/
def b64char (i : Fin 64) : Char :=
  base64Alphabet.get ⟨i.val, by rw [base64Alphabet_length]; exact i.isLt⟩

/-- Modelled from the spec: `random_b64 n` returns `effectiveLen n`
characters of cryptographically-random base64-alphabet text; the
randomness source is abstracted as a stream of 6-bit values. -/
def random_b64 (n : Nat) (entropy : Nat → Fin 64) : List Char :=
  (List.range (effectiveLen n)).map (fun i => b64char (entropy i))

/-- C9: for every requested length n ≥ 1 and every entropy stream, the
output's length is the smallest multiple of 4 that is ≥ n (equal to n
when n is already a multiple of 4), and every output character belongs
to the base64 alphabet. -/
theorem random_b64_length_and_alphabet (n : Nat) (entropy : Nat → Fin 64)
    (hn : 1 ≤ n) :
    (random_b64 n entropy).length = effectiveLen n ∧
    effectiveLen n % 4 = 0 ∧
    n ≤ effectiveLen n ∧
    (∀ m, m % 4 = 0 → n ≤ m → effectiveLen n ≤ m) ∧
    (n % 4 = 0 → effectiveLen n = n) ∧
    (∀ c ∈ random_b64 n entropy, c ∈ base64Alphabet) := by
  refine ⟨?_, ?_, ?_, ?_, ?_, ?_⟩
  · simp [random_b64]
  · simp [effectiveLen, Nat.mul_mod_right]
  · simp only [effectiveLen]
    omega
  · intro m hm hnm
    simp only [effectiveLen]
    omega
  · intro h4
    simp only [effectiveLen]
    omega
  · intro c hc
    simp only [random_b64, List.mem_map] at hc
    rcases hc with ⟨i, _, hi⟩
    rw [← hi]
    exact List.get_mem _ _ _

/-- Witness for C9 at requested length 13 with the constant-zero
entropy stream: the output has 16 characters, 16 is the least multiple
of 4 above 13, and the first character is in the alphabet. -/
theorem random_b64_length_and_alphabet_witness :
    (random_b64 13 (fun _ => (0 : Fin 64))).length = effectiveLen 13 ∧
    effectiveLen 13 = 16 ∧
    effectiveLen 16 = 16 ∧
    effectiveLen 17 = 20 ∧
    (∀ c ∈ random_b64 13 (fun _ => (0 : Fin 64)), c ∈ base64Alphabet) := by
  have h := random_b64_length_and_alphabet 13 (fun _ => (0 : Fin 64)) (by decide)
  exact ⟨h.1, by decide, by decide, by decide, h.2.2.2.2.2⟩

/-! ## Token-request body (`LoginApp.tsx`, `doLogin`)

`doLogin` builds the POST body by template-literal interpolation with no
URL-encoding.  A form-encoded body is decoded by splitting on `&`,
splitting each field at its first `=`, and percent-plus-decoding key and
value; we embed that standard decoding to compare the decoded fields
with the entered values.  The entered strings are modelled as character
lists. -/

/-- The interpolated body
`grant_type=password&username=${userName}&password=${rawPassword}`. -/
def buildTokenBody (u p : List Char) : List Char :=
  "grant_type=password&username=".toList ++ u ++ "&password=".toList ++ p

/-- Split a character list on a separator character. -/
def splitOnChar (c : Char) : List Char → List (List Char)
  | [] => [[]]
  | x :: xs =>
    match splitOnChar c xs with
    | [] => [[x]]
    | hd :: tl => if x = c then [] :: hd :: tl else (x :: hd) :: tl

/-- The split is never the empty list of fields. -/
theorem splitOnChar_ne_nil (c : Char) (l : List Char) : splitOnChar c l ≠ [] := by
  cases l with
  | nil => simp [splitOnChar]
  | cons x xs =>
      cases h : splitOnChar c xs with
      | nil => simp [splitOnChar, h]
      | cons hd tl =>
          by_cases hx : x = c <;> simp [splitOnChar, h, hx]

/-- A leading separator yields a leading empty field. -/
theorem splitOnChar_cons_eq (c : Char) (xs : List Char) :
    splitOnChar c (c :: xs) = [] :: splitOnChar c xs := by
  cases h : splitOnChar c xs with
  | nil => exact absurd h (splitOnChar_ne_nil c xs)
  | cons hd tl => simp [splitOnChar, h]

/-- A leading non-separator is prepended to the first field. -/
theorem splitOnChar_cons_ne {c x : Char} {xs hd : List Char} {tl : List (List Char)}
    (hx : x ≠ c) (h : splitOnChar c xs = hd :: tl) :
    splitOnChar c (x :: xs) = (x :: hd) :: tl := by
  simp [splitOnChar, h, hx]

/-- A separator-free block is prepended whole to the first field. -/
theorem splitOnChar_append_no_sep {c : Char} {a b hd : List Char} {tl : List (List Char)}
    (ha : c ∉ a) (h : splitOnChar c b = hd :: tl) :
    splitOnChar c (a ++ b) = (a ++ hd) :: tl := by
  induction a with
  | nil => simpa using h
  | cons x xs ih =>
      have hx : x ≠ c := fun he => ha (by simp [he])
      have ih' := ih (fun hmem => ha (List.mem_cons_of_mem _ hmem))
      simpa using splitOnChar_cons_ne hx ih'

/-- A separator-free list is one whole field. -/
theorem splitOnChar_no_sep {c : Char} {l : List Char} (h : c ∉ l) :
    splitOnChar c l = [l] := by
  have := splitOnChar_append_no_sep h (show splitOnChar c [] = [] :: [] from rfl)
  simpa using this

/-- Splitting around one separator after a separator-free block. -/
theorem splitOnChar_append_sep {c : Char} {a b : List Char} {r : List (List Char)}
    (ha : c ∉ a) (hb : splitOnChar c b = r) :
    splitOnChar c (a ++ c :: b) = a :: r := by
  have h1 : splitOnChar c (c :: b) = [] :: r := by rw [splitOnChar_cons_eq, hb]
  have := splitOnChar_append_no_sep ha h1
  simpa using this

/-- Split one form field at its first `=`: key and (undecoded) value. -/
def parseField (f : List Char) : List Char × List Char :=
  (f.takeWhile (fun x => x != '='), (f.dropWhile (fun x => x != '=')).drop 1)

/-- A field built as key, `=`, value parses back into key and value when
the key contains no `=`. -/
theorem parseField_concat {k v : List Char} (hk : '=' ∉ k) :
    parseField (k ++ '=' :: v) = (k, v) := by
  induction k with
  | nil => simp [parseField]
  | cons x xs ih =>
      have hx : x ≠ '=' := fun he => hk (by simp [he])
      have ih' := ih (fun hmem => hk (List.mem_cons_of_mem _ hmem))
      have h1 := congrArg Prod.fst ih'
      have h2 := congrArg Prod.snd ih'
      simp only [parseField, Prod.mk.injEq] at h1 h2 ⊢
      constructor
      · simpa [List.takeWhile_cons, hx] using h1
      · simpa [List.dropWhile_cons, hx] using h2

/-- Hexadecimal digit value, as in percent-decoding (code points 48-57
are the digits, 65-70 and 97-102 the upper- and lowercase hex letters). -/
def hexVal (c : Char) : Option Nat :=
  let n := c.toNat
  if 48 ≤ n ∧ n ≤ 57 then some (n - 48)
  else if 65 ≤ n ∧ n ≤ 70 then some (n - 55)
  else if 97 ≤ n ∧ n ≤ 102 then some (n - 87)
  else none

/-- Percent-plus decoding of one form-encoded component: `+` becomes a
space and `%XY` with hex digits becomes the coded character; anything
else is passed through. -/
def decodeChars : List Char → List Char
  | [] => []
  | x :: rest =>
      if x = '+' then ' ' :: decodeChars rest
      else if x = '%' then
        match rest with
        | a :: b :: rest' =>
            match hexVal a, hexVal b with
            | some h1, some h2 => Char.ofNat (16 * h1 + h2) :: decodeChars rest'
            | _, _ => '%' :: decodeChars (a :: b :: rest')
        | other => '%' :: decodeChars other
      else x :: decodeChars rest

/-- A component free of `%` and `+` decodes to itself. -/
theorem decodeChars_id {s : List Char} (h5 : '%' ∉ s) (h6 : '+' ∉ s) :
    decodeChars s = s := by
  induction s with
  | nil => rfl
  | cons x xs ih =>
      have hx5 : x ≠ '%' := fun he => h5 (by simp [he])
      have hx6 : x ≠ '+' := fun he => h6 (by simp [he])
      have ih' := ih (fun hm => h5 (List.mem_cons_of_mem _ hm))
        (fun hm => h6 (List.mem_cons_of_mem _ hm))
      rw [decodeChars.eq_def]
      simp [hx5, hx6, ih']

/-- Form-decode a body: split on `&`, split each field at its first
`=`, percent-plus-decode keys and values. -/
def formDecode (body : List Char) : List (List Char × List Char) :=
  (splitOnChar '&' body).map
    (fun f => (decodeChars (parseField f).1, decodeChars (parseField f).2))

/-- The decoded value of the named field, if present. -/
def lookupField (body key : List Char) : Option (List Char) :=
  ((formDecode body).find? (fun kv => kv.1 == key)).map (fun kv => kv.2)

/-- No form-encoding metacharacter occurs in the component. -/
def noMeta (s : List Char) : Prop := '&' ∉ s ∧ '=' ∉ s ∧ '%' ∉ s ∧ '+' ∉ s

instance (s : List Char) : Decidable (noMeta s) :=
  inferInstanceAs (Decidable (_ ∧ _ ∧ _ ∧ _))

/-- C10: the body is plain interpolation with no URL-encoding, so for
every username and password free of form-encoding metacharacters the
form-decoded fields equal the entered values; and there is an input
containing `&` whose decoded username differs from what was entered. -/
theorem login_body_round_trip (u p : List Char) (hu : noMeta u) (hp : noMeta p) :
    formDecode (buildTokenBody u p) =
      [("grant_type".toList, "password".toList),
       ("username".toList, u),
       ("password".toList, p)] ∧
    lookupField (buildTokenBody u p) "username".toList = some u ∧
    lookupField (buildTokenBody u p) "password".toList = some p ∧
    (∃ u' : List Char, '&' ∈ u' ∧
      lookupField (buildTokenBody u' "pw".toList) "username".toList ≠ some u') := by
  obtain ⟨hu1, hu2, hu3, hu4⟩ := hu
  obtain ⟨hp1, hp2, hp3, hp4⟩ := hp
  have hbody : buildTokenBody u p =
      "grant_type=password".toList ++
        '&' :: ("username=".toList ++ u ++ '&' :: ("password=".toList ++ p)) := by
    have hA : "grant_type=password&username=".toList =
        "grant_type=password".toList ++ '&' :: "username=".toList := by decide
    have hB : "&password=".toList = '&' :: "password=".toList := by decide
    rw [buildTokenBody, hA, hB]
    simp
  have hsplit3 : splitOnChar '&' ("password=".toList ++ p) =
      [("password=".toList ++ p)] := by
    apply splitOnChar_no_sep
    intro hmem
    rcases List.mem_append.mp hmem with h | h
    · revert h
      decide
    · exact hp1 h
  have hsplit2 : splitOnChar '&' ("username=".toList ++ u ++
      '&' :: ("password=".toList ++ p)) =
      ("username=".toList ++ u) :: [("password=".toList ++ p)] := by
    apply splitOnChar_append_sep _ hsplit3
    intro hmem
    rcases List.mem_append.mp hmem with h | h
    · revert h
      decide
    · exact hu1 h
  have hsplit : splitOnChar '&' (buildTokenBody u p) =
      ["grant_type=password".toList,
       "username=".toList ++ u,
       "password=".toList ++ p] := by
    rw [hbody]
    exact splitOnChar_append_sep (by decide) hsplit2
  have hfield2 : parseField ("username=".toList ++ u) = ("username".toList, u) := by
    have he : "username=".toList ++ u = "username".toList ++ '=' :: u := by
      have : "username=".toList = "username".toList ++ ['='] := by decide
      rw [this]
      simp
    rw [he]
    exact parseField_concat (by decide)
  have hfield3 : parseField ("password=".toList ++ p) = ("password".toList, p) := by
    have he : "password=".toList ++ p = "password".toList ++ '=' :: p := by
      have : "password=".toList = "password".toList ++ ['='] := by decide
      rw [this]
      simp
    rw [he]
    exact parseField_concat (by decide)
  have hdecu : decodeChars u = u := decodeChars_id hu3 hu4
  have hdecp : decodeChars p = p := decodeChars_id hp3 hp4
  have hmain : formDecode (buildTokenBody u p) =
      [("grant_type".toList, "password".toList),
       ("username".toList, u),
       ("password".toList, p)] := by
    rw [formDecode, hsplit]
    simp only [List.map_cons, List.map_nil, hfield2, hfield3]
    rw [show parseField "grant_type=password".toList =
        ("grant_type".toList, "password".toList) from by decide]
    simp only [hdecu, hdecp]
    rw [show decodeChars "grant_type".toList = "grant_type".toList from by decide,
        show decodeChars "password".toList = "password".toList from by decide,
        show decodeChars "username".toList = "username".toList from by decide]
  refine ⟨hmain, ?_, ?_, ?_⟩
  · rw [lookupField, hmain]
    simp [List.find?]
  · rw [lookupField, hmain]
    simp [List.find?]
  · refine ⟨['a', '&', 'b'], by decide, ?_⟩
    decide

/-- Witness for C10 at concrete metacharacter-free credentials. -/
theorem login_body_round_trip_witness :
    lookupField (buildTokenBody "alice".toList "pw1".toList) "username".toList =
      some "alice".toList ∧
    lookupField (buildTokenBody "alice".toList "pw1".toList) "password".toList =
      some "pw1".toList := by
  have h := login_body_round_trip "alice".toList "pw1".toList (by decide) (by decide)
  exact ⟨h.2.1, h.2.2.1⟩

end DTP
